import Mathlib

/-!
Verification of the johannus-control-panel runtime controller
(`control-panel.py`), shallowly embedded in Lean 4.

Conventions of the embedding:
* Python byte strings / decoded strings (keypad escape sequences and
  register lines) are modelled as `List Char`.
* Python `set` objects holding stop identifiers are modelled as `Finset ℤ`
  (the stop ids come from `int(...)`, hence integers).
* The global mutable module state of the script is gathered into
  `MainState`; the values loaded from the configuration file are gathered
  into `Config`.
* All I/O side effects (display writes, MIDI messages, persistence calls,
  operator log lines) are reified as an `Effect` list produced by the
  state-transition functions.
* Python iterates a `set` in an unspecified order when emitting the stop
  delta; the embedding fixes the ascending order (`sortedList`), which is
  one admissible order.
* The integer parser `pyInt` covers the inputs that actually occur on the
  register line: an optional sign followed by ASCII digits.  (CPython's
  `int` additionally strips whitespace and allows underscores; none of the
  properties below depend on those inputs.)
-/

namespace JohannusControlPanel

/-- COLUMNS constant of the script: the display is 16 characters wide. -/
def COLUMNS : Nat := 16

/-- Model of `display_outport_writeln`: the data written to the display
device for a given text, namely `text[:COLUMNS] + '\n'` (truncation to the
column count, then the line terminator; there is no padding). -/
def display_outport_writeln (text : List Char) : List Char :=
  text.take COLUMNS ++ ['\n']

/-- The four navigation keys decoded from the keypad escape sequences. -/
inductive Key where
  | LEFT
  | DOWN
  | UP
  | RIGHT
deriving DecidableEq

/-- Reified side effects of one main-loop iteration. -/
inductive Effect where
  /-- raw bytes written to the display device -/
  | write (data : List Char)
  /-- an `AntonijnSysexEvent` control message, by event code and raw value -/
  | sysex (code : Nat) (value : Int)
  /-- a `note_on` (`isOn = true`) or `note_off` stop message -/
  | note (stop : Int) (isOn : Bool)
  /-- a call to `save_user_settings` -/
  | persist
  /-- the blocking `wait_for_ready` handshake receive loop -/
  | waitReady
  /-- the `print('Got command', ...)` operator log line -/
  | logCmd (cmd : List Char)
  /-- the `print(inst)` log line for a caught register-line exception -/
  | logErr
  /-- the `print(piston_settings)` log line in the save action -/
  | logSettings
  /-- a `redraw()` call on the screen with the given chain index -/
  | redrawScreen (idx : Nat)
deriving DecidableEq

/-- Ascending list of the elements of a multiset of integers. -/
def sortedListM (m : Multiset ℤ) : List ℤ :=
  Quot.liftOn m (fun l => l.insertionSort (· ≤ ·)) (fun _ _ h =>
    List.eq_of_perm_of_sorted
      ((List.perm_insertionSort _ _).trans ((Quotient.exact (Quot.sound h)).trans
        (List.perm_insertionSort _ _).symm))
      (List.sorted_insertionSort _ _) (List.sorted_insertionSort _ _))

/-- Sorted list of the elements of a finite set of integers, used to give
the emitted stop delta a concrete (ascending) iteration order. -/
def sortedList (s : Finset ℤ) : List ℤ := sortedListM s.val

/-- Symmetric difference of two stop sets, as in
`active_stops.symmetric_difference(prev_active_stops)`. -/
def sym_diff (a b : Finset ℤ) : Finset ℤ := (a \ b) ∪ (b \ a)

/-- Model of `send_stops(prev_active_stops)`: one note message per stop in
the symmetric difference of the new and previous active sets, `note_on`
when the stop is in the new active set, `note_off` otherwise. -/
def send_stops (prev_active_stops active_stops : Finset ℤ) : List Effect :=
  (sortedList (sym_diff active_stops prev_active_stops)).map
    (fun stop => Effect.note stop (decide (stop ∈ active_stops)))

/-! ### Register-line parsing (`update_stop_selection`) -/

/-- Characters stripped by Python's `str.strip()`. -/
def isPySpace (c : Char) : Bool :=
  c == ' ' || c == '\t' || c == '\n' || c == '\r' || c == '\x0b' || c == '\x0c'

/-- Model of Python `str.strip()`. -/
def strip (s : List Char) : List Char :=
  ((s.dropWhile isPySpace).reverse.dropWhile isPySpace).reverse

/-- Model of Python `str.split(sep)` for a one-character separator: splits
at every occurrence, keeping empty segments, and yields `[[]]` on the empty
string. -/
def splitOnChar (sep : Char) : List Char → List (List Char)
  | [] => [[]]
  | c :: cs =>
    match splitOnChar sep cs, decide (c = sep) with
    | rest, true => [] :: rest
    | [], false => [[c]]
    | w :: ws, false => (c :: w) :: ws

/-- Model of `cmd.split(' ')`. -/
def splitSpace (s : List Char) : List (List Char) := splitOnChar ' ' s

/-- Value of a nonempty ASCII digit string; `none` on any non-digit. -/
def digitsVal : List Char → Nat → Option Nat
  | [], acc => some acc
  | c :: cs, acc =>
    if c.isDigit then digitsVal cs (acc * 10 + (c.toNat - '0'.toNat)) else none

/-- Parse a plain (unsigned) decimal numeral; the empty string fails. -/
def parseDigits : List Char → Option Nat
  | [] => none
  | c :: cs => digitsVal (c :: cs) 0

/-- Model of `int(s)` on the register-line id alphabet: an optional `+` or
`-` sign followed by decimal digits. -/
def pyInt : List Char → Option Int
  | '-' :: rest => (parseDigits rest).map (fun n => -(n : Int))
  | '+' :: rest => (parseDigits rest).map (fun n => (n : Int))
  | s => (parseDigits s).map (fun n => (n : Int))

/-- Model of `{int(s) for s in words[i + 1].split(',')}`: the whole id set,
or `none` if any element fails to parse (the Python set comprehension
raises before any mutation of `selected_stops`). -/
def parseStops (s : List Char) : Option (Finset ℤ) :=
  (splitOnChar ',' s).foldr
    (fun t acc => do
      let n ← pyInt t
      let a ← acc
      pure (insert n a))
    (some ∅)

/-- Result of `update_stop_selection`: either normal completion or a raised
`ValueError`.  In both cases the carried set is the value of the global
`selected_stops` afterwards — Python mutates the set in place, so pairs
applied before a raise stay applied. -/
inductive RegResult where
  | ok (selected : Finset ℤ)
  | err (selected : Finset ℤ)
deriving DecidableEq

/-- The selected-stop set carried by a `RegResult`. -/
def RegResult.selected : RegResult → Finset ℤ
  | .ok s => s
  | .err s => s

/-- The loop body of `update_stop_selection` over the (on/off, ids) word
pairs following the `stop` verb.  Mirrors the Python loop: the id set of a
pair is computed first (a bad id raises), then the on/off token is
dispatched (an unknown token raises); both raises keep the mutations made
by the earlier pairs. -/
def applyPairs : Finset ℤ → List (List Char) → RegResult
  | selected, [] => .ok selected
  | selected, [_] => .err selected
  | selected, on_or_off :: ids :: rest =>
    match parseStops ids with
    | none => .err selected
    | some stops =>
      if on_or_off = "on".data then applyPairs (selected ∪ stops) rest
      else if on_or_off = "off".data then applyPairs (selected \ stops) rest
      else .err selected

/-- Model of `update_stop_selection(cmd)` acting on `selected_stops`. -/
def update_stop_selection (selected : Finset ℤ) (cmd : List Char) : RegResult :=
  match splitSpace (strip cmd) with
  | [] => .err selected
  | w0 :: rest =>
    if w0 ≠ "stop".data then .err selected
    else if (rest.length + 1) % 2 ≠ 1 then .err selected
    else applyPairs selected rest

/-! ### Screens -/

/-- State of an `IntSelect` screen (an `EnumSelect` is an `IntSelect` whose
bounds are `0` and `len(options) - 1`). -/
structure IntSelect where
  value : Int
  default : Int
  minimum : Int
  maximum : Int
  stride : Int
  active : Bool
deriving DecidableEq

/-- Result of `IntSelect.process_key`: the updated screen, the argument of
the `on_update` callback when it was invoked, the key forwarded to the base
`Screen.process_key` navigation when browsing, and whether `redraw()` was
called by the screen itself. -/
structure KeyResult where
  screen : IntSelect
  callback : Option Int
  navigate : Option Key
  redrawn : Bool
deriving DecidableEq

/-- Model of `IntSelect.process_key`. -/
def IntSelect.process_key (s : IntSelect) (key : Key) : KeyResult :=
  if s.active then
    match key with
    | Key.UP =>
      { screen := { s with active := false }, callback := none,
        navigate := none, redrawn := true }
    | Key.LEFT =>
      let new_value := max (s.value - s.stride) s.minimum
      if s.value ≠ new_value then
        { screen := { s with value := new_value }, callback := some new_value,
          navigate := none, redrawn := true }
      else
        { screen := s, callback := none, navigate := none, redrawn := false }
    | Key.RIGHT =>
      let new_value := min (s.value + s.stride) s.maximum
      if s.value ≠ new_value then
        { screen := { s with value := new_value }, callback := some new_value,
          navigate := none, redrawn := true }
      else
        { screen := s, callback := none, navigate := none, redrawn := false }
    | Key.DOWN =>
      { screen := s, callback := none, navigate := none, redrawn := false }
  else
    match key with
    | Key.LEFT =>
      { screen := s, callback := none, navigate := some Key.LEFT, redrawn := false }
    | Key.RIGHT =>
      { screen := s, callback := none, navigate := some Key.RIGHT, redrawn := false }
    | Key.DOWN =>
      { screen := { s with active := true }, callback := none,
        navigate := none, redrawn := true }
    | Key.UP =>
      { screen := s, callback := none, navigate := none, redrawn := false }

/-- Model of `IntSelect.reset`. -/
def IntSelect.reset (s : IntSelect) : IntSelect := { s with value := s.default }

/-- Result of `OnOffSelect.process_key`: new `active` flag, which message
was sent (`some true` for `on_msg`, `some false` for `off_msg`), navigation
forwarding, and whether the screen redrew itself. -/
structure ToggleResult where
  active : Bool
  sent : Option Bool
  navigate : Option Key
  redrawn : Bool
deriving DecidableEq

/-- Model of `OnOffSelect.process_key`. -/
def onOffProcessKey (active : Bool) (key : Key) : ToggleResult :=
  if active then
    match key with
    | Key.UP => { active := false, sent := some false, navigate := none, redrawn := true }
    | _ => { active := active, sent := none, navigate := none, redrawn := false }
  else
    match key with
    | Key.LEFT => { active := active, sent := none, navigate := some Key.LEFT, redrawn := false }
    | Key.RIGHT => { active := active, sent := none, navigate := some Key.RIGHT, redrawn := false }
    | Key.DOWN => { active := true, sent := some true, navigate := none, redrawn := true }
    | Key.UP => { active := active, sent := none, navigate := none, redrawn := false }

/-- Mutable state of the eight screens of the chain, by chain index:
`0` Instrument, `1` Stemming (temperament), `2` Combinatie (piston save),
`3` Transpositie, `4` Opname (recorder), `5` Metron. BPM, `6` Metron. div.,
`7` Metronoom. -/
structure ScreensState where
  current : Nat
  instrument : IntSelect
  temperament : IntSelect
  transpose : IntSelect
  met_bpm : IntSelect
  met_div : IntSelect
  recorder : Bool
  met : Bool
deriving DecidableEq

/-- Only the piston-save screen overrides `should_redraw` to `True`. -/
def should_redraw (scr : ScreensState) : Bool := scr.current == 2

/-! ### Global state and configuration -/

/-- The configuration values read from `setup.toml` that the event loop
consults. -/
structure Config where
  manual_piston : Option (List Char)
  reed_stops : Finset ℤ
deriving DecidableEq

/-- The global mutable state owned by the event loop. -/
structure MainState where
  selected_stops : Finset ℤ
  active_stops : Finset ℤ
  piston : Option (List Char)
  reed_cutoff : Bool
  piston_settings : List (List Char × Finset ℤ)
  screen_asleep : Bool
  screens : ScreensState
deriving DecidableEq

/-- Lookup in the `piston_settings` dict (keys are unique by
construction: entries are only created through `upsert`). -/
def lookupSettings : List (List Char × Finset ℤ) → List Char → Option (Finset ℤ)
  | [], _ => none
  | (k, v) :: rest, p => if k = p then some v else lookupSettings rest p

/-- Model of the dict assignment `piston_settings[piston] = ...`:
replace the existing entry or append a new one. -/
def upsert : List (List Char × Finset ℤ) → List Char → Finset ℤ →
    List (List Char × Finset ℤ)
  | [], k, v => [(k, v)]
  | (k0, v0) :: rest, k, v =>
    if k0 = k then (k, v) :: rest else (k0, v0) :: upsert rest k v

/-- Model of `piston in piston_settings` combined with the subsequent
indexing: `none` when no piston is selected (`piston is None` is never a
dict key) or when the selected piston has no stored snapshot. -/
def pistonLookup (st : MainState) : Option (Finset ℤ) :=
  match st.piston with
  | none => none
  | some p => lookupSettings st.piston_settings p

/-- Model of lines 463–469 of the main loop: the recomputed active-stop
set.  `piston == manual_piston or piston not in piston_settings` selects
the manual branch; reed cutoff then removes the configured reed stops. -/
def computeActive (conf : Config) (st : MainState) : Finset ℤ :=
  let base :=
    if st.piston = conf.manual_piston ∨ pistonLookup st = none then
      st.selected_stops
    else
      (pistonLookup st).getD ∅
  if st.reed_cutoff then base \ conf.reed_stops else base

/-- Model of `PistonSaveScreen.can_save`:
`piston is not None and piston != manual_piston`. -/
def can_save (piston manual_piston : Option (List Char)) : Bool :=
  piston.isSome && decide (piston ≠ manual_piston)

/-! ### Key dispatch on the screen chain -/

/-- Index of the neighbour reached from `cur` by a navigation key, per the
`chain_screens` wiring of the eight screens (ends have no neighbour in the
outward direction). -/
def navTarget (cur : Nat) (key : Key) : Nat :=
  match key with
  | Key.LEFT => if cur = 0 then cur else cur - 1
  | Key.RIGHT => if cur = 7 then cur else cur + 1
  | _ => cur

/-- Model of the base `Screen.process_key`: move `active_screen` to the
adjacent screen when one exists in that direction, redrawing the newly
current screen. -/
def doNav (st : MainState) (key : Key) : MainState × List Effect :=
  let cur := st.screens.current
  let n := navTarget cur key
  if n = cur then (st, [])
  else ({ st with screens := { st.screens with current := n } }, [Effect.redrawScreen n])

/-- Key handling for a plain `IntSelect`/`EnumSelect` screen whose
`on_update` sends a single sysex message with the given event code. -/
def intScreenStep (st : MainState) (key : Key)
    (get : ScreensState → IntSelect) (setf : ScreensState → IntSelect → ScreensState)
    (idx : Nat) (code : Nat) : MainState × List Effect :=
  let r := (get st.screens).process_key key
  match r.navigate with
  | some k => doNav st k
  | none =>
    let st1 := { st with screens := setf st.screens r.screen }
    match r.callback with
    | some v =>
      (st1, [Effect.sysex code v] ++ (if r.redrawn then [Effect.redrawScreen idx] else []))
    | none =>
      (st1, if r.redrawn then [Effect.redrawScreen idx] else [])

/-- Key handling for the Instrument screen.  Its `on_update` sends the
INSTRUMENT message, runs `wait_for_ready` (two display writes and the
blocking handshake), resets the reload-sensitive screens (temperament,
metronome BPM, metronome division), and re-sends the whole active-stop set
against an empty previous set. -/
def instrumentStep (st : MainState) (key : Key) : MainState × List Effect :=
  let r := st.screens.instrument.process_key key
  match r.navigate with
  | some k => doNav st k
  | none =>
    let scr1 := { st.screens with instrument := r.screen }
    match r.callback with
    | some v =>
      let scr2 := { scr1 with
        temperament := scr1.temperament.reset,
        met_bpm := scr1.met_bpm.reset,
        met_div := scr1.met_div.reset }
      ({ st with screens := scr2 },
        [Effect.sysex 4 v,
         Effect.write (display_outport_writeln "Laden...".data),
         Effect.write (display_outport_writeln []),
         Effect.waitReady]
        ++ send_stops ∅ st.active_stops
        ++ (if r.redrawn then [Effect.redrawScreen 0] else []))
    | none =>
      ({ st with screens := scr1 }, if r.redrawn then [Effect.redrawScreen 0] else [])

/-- Key handling for an `OnOffSelect` screen (`on_msg`/`off_msg` given by
their sysex event codes; both carry value 0). -/
def toggleStep (st : MainState) (key : Key)
    (get : ScreensState → Bool) (setf : ScreensState → Bool → ScreensState)
    (idx onCode offCode : Nat) : MainState × List Effect :=
  let r := onOffProcessKey (get st.screens) key
  match r.navigate with
  | some k => doNav st k
  | none =>
    let st1 := { st with screens := setf st.screens r.active }
    match r.sent with
    | some true => (st1, [Effect.sysex onCode 0, Effect.redrawScreen idx])
    | some false => (st1, [Effect.sysex offCode 0, Effect.redrawScreen idx])
    | none => (st1, [])

/-- Model of `PistonSaveScreen.process_key`: LEFT/RIGHT always navigate;
DOWN saves the current selection under the current piston and persists,
but only when `can_save()` holds. -/
def pistonSaveStep (conf : Config) (st : MainState) (key : Key) :
    MainState × List Effect :=
  match key with
  | Key.LEFT => doNav st Key.LEFT
  | Key.RIGHT => doNav st Key.RIGHT
  | Key.DOWN =>
    match st.piston with
    | some p =>
      if some p ≠ conf.manual_piston then
        ({ st with piston_settings := upsert st.piston_settings p st.selected_stops },
         [Effect.logSettings, Effect.persist, Effect.redrawScreen 2])
      else (st, [])
    | none => (st, [])
  | Key.UP => (st, [])

/-- Dispatch of an awake navigation key to the current screen's
`process_key`, by chain index, with each screen's `on_update` effects.
Event codes: TRANSPOSE 1, TEMPERAMENT 2, INSTRUMENT 4, METRONOME_BPM 5,
METRONOME_MEASURE 6, recording 0x141/0x142, metronome 0x143/0x144. -/
def stepKey (conf : Config) (st : MainState) (key : Key) : MainState × List Effect :=
  match st.screens.current with
  | 0 => instrumentStep st key
  | 1 => intScreenStep st key (fun s => s.temperament)
      (fun s t => { s with temperament := t }) 1 2
  | 2 => pistonSaveStep conf st key
  | 3 => intScreenStep st key (fun s => s.transpose)
      (fun s t => { s with transpose := t }) 3 1
  | 4 => toggleStep st key (fun s => s.recorder)
      (fun s b => { s with recorder := b }) 4 0x141 0x142
  | 5 => intScreenStep st key (fun s => s.met_bpm)
      (fun s t => { s with met_bpm := t }) 5 5
  | 6 => intScreenStep st key (fun s => s.met_div)
      (fun s t => { s with met_div := t }) 6 6
  | 7 => toggleStep st key (fun s => s.met)
      (fun s b => { s with met := b }) 7 0x143 0x144
  | _ => (st, [])

/-! ### The main loop body -/

/-- The `keymap` dict of the main loop. -/
def keymap (cmd : List Char) : Option Key :=
  if cmd = "\x1b[A".data then some Key.UP
  else if cmd = "\x1b[B".data then some Key.DOWN
  else if cmd = "\x1b[C".data then some Key.RIGHT
  else if cmd = "\x1b[D".data then some Key.LEFT
  else none

/-- Model of the register-line branch of the main loop (the `try` body):
`stop ...` lines go through `update_stop_selection` (a raise is caught and
logged, keeping the mutations made so far), `piston ...` sets the current
piston to the stripped remainder, `reeds on`/`reeds off` set the cutoff
flag, anything else is ignored. -/
def stepReg (st : MainState) (cmd : List Char) :
    MainState × List Effect :=
  if ("stop ".data).isPrefixOf cmd then
    match update_stop_selection st.selected_stops cmd with
    | .ok sel => ({ st with selected_stops := sel }, [])
    | .err sel => ({ st with selected_stops := sel }, [Effect.logErr])
  else if ("piston ".data).isPrefixOf cmd then
    ({ st with piston := some (strip (cmd.drop 7)) }, [])
  else if cmd = "reeds on\n".data then
    ({ st with reed_cutoff := false }, [])
  else if cmd = "reeds off\n".data then
    ({ st with reed_cutoff := true }, [])
  else (st, [])

/-- The event dispatch of one main-loop iteration (lines 432–459):
the distinguished `sleep` event blanks the display and sets the asleep
flag; a recognized key while asleep only wakes the display; a recognized
key while awake goes to the current screen; anything else is logged and
treated as a register line. -/
def dispatch (conf : Config) (st : MainState) (cmd : List Char) :
    MainState × List Effect :=
  if cmd = "sleep\n".data then
    ({ st with screen_asleep := true },
     [Effect.write (display_outport_writeln []),
      Effect.write (display_outport_writeln [])])
  else
    match keymap cmd with
    | some key =>
      if st.screen_asleep then
        ({ st with screen_asleep := false }, [Effect.redrawScreen st.screens.current])
      else stepKey conf st key
    | none =>
      let r := stepReg st cmd
      (r.1, Effect.logCmd cmd :: r.2)

/-- One full main-loop iteration: dispatch the dequeued event, recompute
the active-stop set, emit the stop delta, and redraw the current screen
when awake and it reports `should_redraw`. -/
def step (conf : Config) (st : MainState) (cmd : List Char) :
    MainState × List Effect :=
  let d := dispatch conf st cmd
  let newActive := computeActive conf d.1
  ({ d.1 with active_stops := newActive },
   d.2 ++ send_stops d.1.active_stops newActive ++
     (if !d.1.screen_asleep && should_redraw d.1.screens then
       [Effect.redrawScreen d.1.screens.current]
     else []))

/-- Fold `step` over a sequence of dequeued events. -/
def run (conf : Config) (st : MainState) : List (List Char) → MainState
  | [] => st
  | c :: cs => run conf (step conf st c).1 cs

/-! ### Startup values (for concrete scenarios) -/

/-- Instrument screen: `EnumSelect` over 2 instruments, default 0. -/
def instrument0 : IntSelect :=
  { value := 0, default := 0, minimum := 0, maximum := 1, stride := 1, active := false }

/-- Temperament screen: `EnumSelect` over 9 temperaments, default 1. -/
def temperament0 : IntSelect :=
  { value := 1, default := 1, minimum := 0, maximum := 8, stride := 1, active := false }

/-- Transposition screen: `IntSelect(0, -11, 11)`. -/
def transpose0 : IntSelect :=
  { value := 0, default := 0, minimum := -11, maximum := 11, stride := 1, active := false }

/-- Metronome BPM screen: `IntSelect(80, 1, 500)`. -/
def met_bpm0 : IntSelect :=
  { value := 80, default := 80, minimum := 1, maximum := 500, stride := 1, active := false }

/-- Metronome division screen: `IntSelect(4, 0, 32)`. -/
def met_div0 : IntSelect :=
  { value := 4, default := 4, minimum := 0, maximum := 32, stride := 1, active := false }

/-- The screen chain right after startup (`active_screen = instrument`). -/
def initScreens : ScreensState :=
  { current := 0, instrument := instrument0, temperament := temperament0,
    transpose := transpose0, met_bpm := met_bpm0, met_div := met_div0,
    recorder := false, met := false }

/-- The global state right after startup with no saved user settings. -/
def initState : MainState :=
  { selected_stops := ∅, active_stops := ∅, piston := none,
    reed_cutoff := false, piston_settings := [], screen_asleep := false,
    screens := initScreens }

/-- A sample configuration: manual piston `"HW"`, reed stops `{30, 31}`. -/
def conf1 : Config := { manual_piston := some "HW".data, reed_stops := {30, 31} }

/-- The stop set `{1}`. -/
def oneSet : Finset ℤ := {1}

/-- A state in which the Instrument screen is in editing mode and stop 1
is selected and sounding (used to exercise the instrument-change path). -/
def instrumentEditingState : MainState :=
  { initState with
    selected_stops := oneSet
    active_stops := oneSet
    screens := { initScreens with instrument := { instrument0 with active := true } } }

/-- A state with reed cutoff enabled and a reed stop among the selection. -/
def cutoffState : MainState :=
  { initState with
    reed_cutoff := true
    selected_stops := ({1, 30} : Finset ℤ) }

/-- A state whose current piston is the designated manual piston of
`conf1`. -/
def manualPistonState : MainState :=
  { initState with piston := some "HW".data }

/-- A state with selection `{1, 2}` and piston `"P1"` chosen. -/
def pistonP1State : MainState :=
  { initState with
    selected_stops := ({1, 2} : Finset ℤ)
    active_stops := ({1, 2} : Finset ℤ)
    piston := some "P1".data }

/-- The startup state with the display blanked. -/
def asleepState : MainState := { initState with screen_asleep := true }

/-- The Transposition screen in editing mode. -/
def transposeEditing : IntSelect := { transpose0 with active := true }

/-- Modelled from the spec (§4.4 contract, for comparison with the code):
`active = copy(selected)` when no piston is selected, or the selected
piston is the designated manual piston, or it has no stored snapshot;
otherwise `active = copy(pistonMemory[piston])`; finally reed cutoff
removes every configured reed stop. -/
def specActive (conf : Config) (st : MainState) : Finset ℤ :=
  let base :=
    if st.piston = none ∨ st.piston = conf.manual_piston ∨ pistonLookup st = none then
      st.selected_stops
    else
      (pistonLookup st).getD ∅
  if st.reed_cutoff then base \ conf.reed_stops else base

/-! ### Helper lemmas -/

theorem coe_sortedListM (m : Multiset ℤ) : (sortedListM m : Multiset ℤ) = m :=
  Quot.inductionOn m fun l => Quot.sound (List.perm_insertionSort _ l)

theorem mem_sortedList (s : Finset ℤ) (x : ℤ) : x ∈ sortedList s ↔ x ∈ s := by
  rw [Finset.mem_def, ← coe_sortedListM s.val, Multiset.mem_coe]
  exact Iff.rfl

theorem length_sortedList (s : Finset ℤ) : (sortedList s).length = s.card := by
  rw [Finset.card_def, ← coe_sortedListM s.val, Multiset.coe_card]
  rfl

theorem nodup_sortedList (s : Finset ℤ) : (sortedList s).Nodup := by
  rw [← Multiset.coe_nodup]
  show (↑(sortedListM s.val) : Multiset ℤ).Nodup
  rw [coe_sortedListM s.val]
  exact s.nodup

theorem sym_diff_self (a : Finset ℤ) : sym_diff a a = ∅ := by
  simp [sym_diff]

theorem send_stops_self (a : Finset ℤ) : send_stops a a = [] := by
  unfold send_stops sortedList
  rw [sym_diff_self]
  rfl

theorem lookupSettings_upsert (l : List (List Char × Finset ℤ)) (k : List Char)
    (v : Finset ℤ) : lookupSettings (upsert l k v) k = some v := by
  induction l with
  | nil => simp [upsert, lookupSettings]
  | cons hd tl ih =>
    by_cases h : hd.1 = k
    · simp [upsert, h, lookupSettings]
    · simpa [upsert, h, lookupSettings] using ih

theorem step_fst (conf : Config) (st : MainState) (cmd : List Char) :
    (step conf st cmd).1 =
      { (dispatch conf st cmd).1 with
        active_stops := computeActive conf (dispatch conf st cmd).1 } :=
  rfl

theorem step_snd (conf : Config) (st : MainState) (cmd : List Char) :
    (step conf st cmd).2 =
      (dispatch conf st cmd).2 ++
        send_stops (dispatch conf st cmd).1.active_stops
          (computeActive conf (dispatch conf st cmd).1) ++
        (if !(dispatch conf st cmd).1.screen_asleep &&
            should_redraw (dispatch conf st cmd).1.screens then
          [Effect.redrawScreen (dispatch conf st cmd).1.screens.current]
        else []) :=
  rfl

theorem keymap_ne_sleep (cmd : List Char) (key : Key) (hk : keymap cmd = some key) :
    cmd ≠ ("sleep\n".data) := by
  intro heq
  rw [heq, show keymap ("sleep\n".data) = none from rfl] at hk
  exact Option.noConfusion hk

theorem dispatch_key_asleep (conf : Config) (st : MainState) (cmd : List Char)
    (key : Key) (hk : keymap cmd = some key) (ha : st.screen_asleep = true) :
    dispatch conf st cmd =
      ({ st with screen_asleep := false },
       [Effect.redrawScreen st.screens.current]) := by
  unfold dispatch
  rw [if_neg (keymap_ne_sleep cmd key hk), hk, ha]
  rfl

theorem dispatch_reg (conf : Config) (st : MainState) (cmd : List Char)
    (hk : keymap cmd = none) (hs : cmd ≠ ("sleep\n".data)) :
    dispatch conf st cmd =
      ((stepReg st cmd).1, Effect.logCmd cmd :: (stepReg st cmd).2) := by
  unfold dispatch
  rw [if_neg hs, hk]

theorem stop_line_not_key (cmd : List Char)
    (h : (("stop ".data).isPrefixOf cmd) = true) :
    keymap cmd = none ∧ cmd ≠ ("sleep\n".data) := by
  constructor
  · unfold keymap
    split_ifs with h1 h2 h3 h4
    · rw [h1] at h; exact absurd h (by decide)
    · rw [h2] at h; exact absurd h (by decide)
    · rw [h3] at h; exact absurd h (by decide)
    · rw [h4] at h; exact absurd h (by decide)
    · rfl
  · intro heq; rw [heq] at h; exact absurd h (by decide)

theorem computeActive_cutoff (conf : Config) (st : MainState)
    (h : st.reed_cutoff = true) :
    computeActive conf st ∩ conf.reed_stops = ∅ := by
  unfold computeActive
  rw [h]
  exact Finset.disjoint_iff_inter_eq_empty.mp Finset.sdiff_disjoint

/-! ### Claims -/

/-- C1 (counterexample): processing three malformed register lines and
then the valid line `reeds on` does NOT leave the reed-cutoff flag true —
the code clears the flag on `reeds on` (and sets it on `reeds off`),
opposite to the claim's polarity.  Starting from a state with the flag
enabled makes the clearing explicit. -/
theorem C1_counterexample :
    ¬ ((run conf1 initState
        ["bogus\n".data, "stop on x\n".data, "reeds banana\n".data,
         "reeds on\n".data]).reed_cutoff = true) ∧
    (run conf1 { initState with reed_cutoff := true }
        ["reeds on\n".data]).reed_cutoff = false := by
  exact ⟨by decide, by decide⟩

/-- C1 (amended): after the event loop processes a register line
consisting exactly of `reeds on`, the reed-cutoff flag is FALSE, and after
`reeds off` it is TRUE; this holds from any prior state — in particular
after any sequence of malformed register lines — and the loop body is a
total function, so no exception escapes the loop. -/
theorem C1_reeds_polarity (conf : Config) (st : MainState) :
    (step conf st ("reeds on\n".data)).1.reed_cutoff = false ∧
    (step conf st ("reeds off\n".data)).1.reed_cutoff = true :=
  ⟨rfl, rfl⟩

/-- C2: the recomputed active-stop set equals a copy of the manually
selected stops when no piston is selected, or the selected piston is the
designated manual piston, or it has no stored snapshot in piston memory;
otherwise it equals a copy of that piston's stored snapshot; and when the
reed-cutoff flag is enabled every configured reed stop is removed. -/
theorem C2_active_stop_policy (conf : Config) (st : MainState) :
    computeActive conf st = specActive conf st := by
  have hiff : (st.piston = conf.manual_piston ∨ pistonLookup st = none)
      ↔ (st.piston = none ∨ st.piston = conf.manual_piston ∨ pistonLookup st = none) := by
    constructor
    · exact fun h => Or.inr h
    · rintro (h | h)
      · right; simp [pistonLookup, h]
      · exact h
  unfold computeActive specActive
  dsimp only
  rw [if_congr hiff rfl rfl]

/-- C5: after any main-loop iteration, if the reed-cutoff flag is enabled
then the active-stop set is disjoint from the configured reed-stop set,
whatever the selection and piston memory contain. -/
theorem C5_reed_cutoff_invariant (conf : Config) (st : MainState)
    (cmd : List Char) (h : (step conf st cmd).1.reed_cutoff = true) :
    (step conf st cmd).1.active_stops ∩ conf.reed_stops = ∅ := by
  have hc : (dispatch conf st cmd).1.reed_cutoff = true := h
  have ha : (step conf st cmd).1.active_stops
      = computeActive conf (dispatch conf st cmd).1 := rfl
  rw [ha]
  exact computeActive_cutoff conf _ hc

/-- C5 (witness): a concrete iteration with the cutoff enabled — the
resulting active set avoids the reed stops of `conf1`. -/
theorem C5_reed_cutoff_invariant_witness :
    (step conf1 cutoffState ("bogus\n".data)).1.reed_cutoff = true ∧
    (step conf1 cutoffState ("bogus\n".data)).1.active_stops ∩ conf1.reed_stops = ∅ :=
  ⟨by decide, C5_reed_cutoff_invariant conf1 cutoffState ("bogus\n".data) (by decide)⟩

/-- C8 (counterexample): the claim entails that every written line has a
16-character body plus the terminator, i.e. 17 written characters; the
startup text `Laden...` is written as 9 characters — `writeLine` truncates
but does not pad. -/
theorem C8_counterexample :
    ¬ ((display_outport_writeln ("Laden...".data)).length = COLUMNS + 1) := by
  decide

/-- C8 (amended): `writeLine` truncates the text to at most the column
width (16), appends a line terminator, and writes exactly those encoded
characters; the line body is a prefix of the text of length
`min 16 (length text)` — shorter texts are not padded. -/
theorem C8_writeln_truncates (text : List Char) :
    (display_outport_writeln text).length = min COLUMNS text.length + 1 ∧
    text.take COLUMNS <+: text ∧
    display_outport_writeln text = text.take COLUMNS ++ ['\n'] := by
  refine ⟨?_, List.take_prefix _ _, rfl⟩
  simp [display_outport_writeln]

/-- C10: any dequeued event whose bytes are exactly `sleep\n` — the model
queues the keypad reader's idle-timeout marker and a verbatim register
line `sleep` as this same byte string, so the two are indistinguishable at
dispatch — writes two empty display lines, sets the asleep flag, and
leaves every screen, the selected stops, the piston and the reed-cutoff
flag unchanged. -/
theorem C10_sleep_event (conf : Config) (st : MainState) :
    (step conf st ("sleep\n".data)).1.screen_asleep = true ∧
    (step conf st ("sleep\n".data)).1.screens = st.screens ∧
    (step conf st ("sleep\n".data)).1.selected_stops = st.selected_stops ∧
    (step conf st ("sleep\n".data)).1.piston = st.piston ∧
    (step conf st ("sleep\n".data)).1.reed_cutoff = st.reed_cutoff ∧
    (step conf st ("sleep\n".data)).1.piston_settings = st.piston_settings ∧
    (step conf st ("sleep\n".data)).2.take 2 =
      [Effect.write (display_outport_writeln []),
       Effect.write (display_outport_writeln [])] :=
  ⟨rfl, rfl, rfl, rfl, rfl, rfl, rfl⟩

/-- C3 (counterexample): the malformed line `stop on 1 bogus 2` — whose
second on/off token is unrecognized — raises inside the pair loop AFTER
the first pair has been applied, so the selected-stop set is mutated
(stop 1 is now selected) even though the line is malformed and its
exception is caught. -/
theorem C3_counterexample :
    update_stop_selection ∅ ("stop on 1 bogus 2\n".data) = RegResult.err oneSet ∧
    (step conf1 initState ("stop on 1 bogus 2\n".data)).1.selected_stops
      ≠ initState.selected_stops := by
  exact ⟨by decide, by decide⟩

/-- C3 (amended): a malformed register line is caught and the loop
survives it; it never changes the piston, the reed-cutoff flag, the screen
states or the asleep flag; the selected-stop set is untouched when the
fault precedes any pair application (wrong verb, even token count, or a
fault in the first on/off pair), but well-formed pairs preceding a later
malformed token remain applied. -/
theorem C3_malformed_line_effects :
    (∀ (conf : Config) (st : MainState) (cmd : List Char),
      (("stop ".data).isPrefixOf cmd) = true →
      (step conf st cmd).1.piston = st.piston ∧
      (step conf st cmd).1.reed_cutoff = st.reed_cutoff ∧
      (step conf st cmd).1.screens = st.screens ∧
      (step conf st cmd).1.screen_asleep = st.screen_asleep ∧
      (step conf st cmd).1.selected_stops
        = (update_stop_selection st.selected_stops cmd).selected) ∧
    (∀ (sel : Finset ℤ) (w0 : List Char) (rest : List (List Char)),
      w0 ≠ "stop".data →
      ∀ cmd : List Char, splitSpace (strip cmd) = w0 :: rest →
      update_stop_selection sel cmd = RegResult.err sel) ∧
    (∀ (sel : Finset ℤ) (cmd : List Char),
      (splitSpace (strip cmd)).length % 2 = 0 →
      update_stop_selection sel cmd = RegResult.err sel) ∧
    (∀ (sel : Finset ℤ) (on_or_off ids : List Char) (rest : List (List Char)),
      parseStops ids = none ∨ (on_or_off ≠ "on".data ∧ on_or_off ≠ "off".data) →
      applyPairs sel (on_or_off :: ids :: rest) = RegResult.err sel) := by
  refine ⟨?_, ?_, ?_, ?_⟩
  · intro conf st cmd h
    obtain ⟨hk, hs⟩ := stop_line_not_key cmd h
    rw [step_fst, dispatch_reg conf st cmd hk hs]
    unfold stepReg
    rw [if_pos h]
    rcases hres : update_stop_selection st.selected_stops cmd with sel | sel <;>
      simp [hres, RegResult.selected]
  · intro sel w0 rest hne cmd hsplit
    unfold update_stop_selection
    rw [hsplit]
    exact if_pos hne
  · intro sel cmd hlen
    unfold update_stop_selection
    rcases hsplit : splitSpace (strip cmd) with _ | ⟨w0, rest⟩
    · rfl
    · rw [hsplit] at hlen
      simp only [List.length_cons] at hlen
      by_cases hw : w0 ≠ "stop".data
      · exact if_pos hw
      · exact (if_neg hw).trans (if_pos (by omega))
  · intro sel on_or_off ids rest h
    unfold applyPairs
    rcases hps : parseStops ids with _ | stops
    · rfl
    · rcases h with h | ⟨h1, h2⟩
      · rw [hps] at h; exact Option.noConfusion h
      · exact (if_neg h1).trans (if_neg h2)

/-- C3 (witness): the amended statement at concrete inputs — a malformed
`stop` line leaves the piston alone; a wrong verb, an even token count and
a malformed first pair each leave the selected set unchanged. -/
theorem C3_malformed_line_effects_witness :
    (step conf1 initState ("stop on 1 bogus 2\n".data)).1.piston = initState.piston ∧
    update_stop_selection ∅ ("stp on 1\n".data) = RegResult.err ∅ ∧
    update_stop_selection ∅ ("stop on\n".data) = RegResult.err ∅ ∧
    applyPairs ∅ ["bogus".data, "2".data] = RegResult.err ∅ :=
  ⟨(C3_malformed_line_effects.1 conf1 initState ("stop on 1 bogus 2\n".data) (by decide)).1,
   C3_malformed_line_effects.2.1 ∅ ("stp".data) [("on".data), ("1".data)]
     (by decide) ("stp on 1\n".data) (by decide),
   C3_malformed_line_effects.2.2.1 ∅ ("stop on\n".data) (by decide),
   C3_malformed_line_effects.2.2.2 ∅ ("bogus".data) ("2".data) []
     (Or.inr ⟨by decide, by decide⟩)⟩

/-- C4 (counterexample): an instrument-change event (RIGHT with the
Instrument screen in editing mode) re-sends the whole active set through
`send_stops(set())`, so a `note_on` for stop 1 is emitted even though the
symmetric difference of the previous and new active sets for that event
is empty — not every processed event emits exactly the symmetric
difference. -/
theorem C4_counterexample :
    Effect.note 1 true ∈ (step conf1 instrumentEditingState ("\x1b[C".data)).2 ∧
    sym_diff (step conf1 instrumentEditingState ("\x1b[C".data)).1.active_stops
      instrumentEditingState.active_stops = ∅ := by
  exact ⟨by decide, by decide⟩

/-- C4 (amended): the per-iteration delta emission `send_stops` emits
exactly one note message per stop in the symmetric difference of the
previous and new active sets — an on-message iff the stop is now active,
nothing for stops in both or neither set, and no duplicates; the lone
exception is the instrument-reload path, which deliberately re-sends the
full active set against an empty previous set (see `C4_counterexample`). -/
theorem C4_delta_is_sym_diff (prev_active active : Finset ℤ) :
    (send_stops prev_active active).length = (sym_diff active prev_active).card ∧
    (send_stops prev_active active).Nodup ∧
    (∀ e ∈ send_stops prev_active active, ∃ s b, e = Effect.note s b) ∧
    (∀ (s : ℤ) (b : Bool), Effect.note s b ∈ send_stops prev_active active ↔
      (s ∈ sym_diff active prev_active ∧ b = decide (s ∈ active))) := by
  refine ⟨?_, ?_, ?_, ?_⟩
  · rw [send_stops, List.length_map, length_sortedList]
  · refine (nodup_sortedList _).map ?_
    intro a b hab
    injection hab
  · intro e he
    rw [send_stops, List.mem_map] at he
    obtain ⟨a, -, rfl⟩ := he
    exact ⟨a, decide (a ∈ active), rfl⟩
  · intro s b
    rw [send_stops, List.mem_map]
    constructor
    · rintro ⟨a, ha, heq⟩
      injection heq with h1 h2
      subst h1
      exact ⟨(mem_sortedList _ _).mp ha, h2.symm⟩
    · rintro ⟨hs, hb⟩
      exact ⟨s, (mem_sortedList _ _).mpr hs, by rw [hb]⟩

/-- C6: for a Value Selector in editing mode, LEFT and RIGHT move the
value by minus/plus stride clamped to `[minimum, maximum]`; from any value
within the bounds the result stays within the bounds; and the update
callback carries a value exactly when the stored value actually changed. -/
theorem C6_value_selector_clamp (s : IntSelect) (key : Key)
    (hact : s.active = true) (hmin : s.minimum ≤ s.value)
    (hmax : s.value ≤ s.maximum) (hstride : 0 ≤ s.stride)
    (hkey : key = Key.LEFT ∨ key = Key.RIGHT) :
    ((s.process_key key).screen.value =
      if key = Key.LEFT then max (s.value - s.stride) s.minimum
      else min (s.value + s.stride) s.maximum) ∧
    s.minimum ≤ (s.process_key key).screen.value ∧
    (s.process_key key).screen.value ≤ s.maximum ∧
    ((s.process_key key).callback =
      if (s.process_key key).screen.value = s.value then none
      else some (s.process_key key).screen.value) := by
  rcases hkey with h | h <;> subst h <;>
    simp only [IntSelect.process_key, hact, if_true, reduceCtorEq, reduceIte]
  · by_cases hv : s.value = max (s.value - s.stride) s.minimum
    · rw [if_neg (by simpa using hv)]
      refine ⟨hv, hmin, hmax, ?_⟩
      rw [if_pos rfl]
    · rw [if_pos hv]
      refine ⟨rfl, le_max_right _ _, max_le (by omega) (hmin.trans hmax), ?_⟩
      rw [if_neg (fun hc => hv hc.symm)]
  · by_cases hv : s.value = min (s.value + s.stride) s.maximum
    · rw [if_neg (by simpa using hv)]
      refine ⟨hv, hmin, hmax, ?_⟩
      rw [if_pos rfl]
    · rw [if_pos hv]
      refine ⟨rfl, le_min (by omega) (hmin.trans hmax), min_le_right _ _, ?_⟩
      rw [if_neg (fun hc => hv hc.symm)]

/-- C6 (witness): the Transposition screen in editing mode at value 0,
LEFT key — the clamped result stays within `[-11, 11]`. -/
theorem C6_value_selector_clamp_witness :
    transposeEditing.active = true ∧
    transposeEditing.minimum ≤ transposeEditing.value ∧
    transposeEditing.minimum ≤ (transposeEditing.process_key Key.LEFT).screen.value ∧
    (transposeEditing.process_key Key.LEFT).screen.value ≤ transposeEditing.maximum :=
  ⟨rfl, by decide,
   (C6_value_selector_clamp transposeEditing Key.LEFT rfl (by decide) (by decide)
     (by decide) (Or.inl rfl)).2.1,
   (C6_value_selector_clamp transposeEditing Key.LEFT rfl (by decide) (by decide)
     (by decide) (Or.inl rfl)).2.2.1⟩

/-- C7: on the Combination-Save screen, DOWN saves and persists exactly
when `can_save()` holds — a piston is selected and it is not the manual
piston; when `can_save()` is false nothing changes and no persistence call
occurs; when it holds, the snapshot stored under the current piston equals
a copy of the currently selected stop set. -/
theorem C7_piston_save (conf : Config) (st : MainState) :
    (can_save st.piston conf.manual_piston = true ↔
      ∃ p, st.piston = some p ∧ some p ≠ conf.manual_piston) ∧
    (can_save st.piston conf.manual_piston = false →
      (pistonSaveStep conf st Key.DOWN).1 = st ∧
      Effect.persist ∉ (pistonSaveStep conf st Key.DOWN).2) ∧
    (∀ p : List Char, st.piston = some p →
      can_save st.piston conf.manual_piston = true →
      (pistonSaveStep conf st Key.DOWN).1 =
        { st with piston_settings := upsert st.piston_settings p st.selected_stops } ∧
      lookupSettings (pistonSaveStep conf st Key.DOWN).1.piston_settings p
        = some st.selected_stops ∧
      Effect.persist ∈ (pistonSaveStep conf st Key.DOWN).2) := by
  refine ⟨?_, ?_, ?_⟩
  · rcases hp : st.piston with _ | p
    · simp [can_save, hp]
    · simp [can_save, hp]
  · intro hno
    rcases hp : st.piston with _ | p
    · simp [pistonSaveStep, hp]
    · rw [can_save, hp] at hno
      simp only [Option.isSome_some, Bool.true_and, decide_eq_false_iff_not,
        Ne, not_not] at hno
      simp only [pistonSaveStep, hp]
      rw [if_neg (not_not_intro hno)]
      exact ⟨rfl, by simp⟩
  · intro p hp hyes
    rw [can_save, hp] at hyes
    simp only [Option.isSome_some, Bool.true_and, decide_eq_true_eq] at hyes
    refine ⟨?_, ?_, ?_⟩
    · simp only [pistonSaveStep, hp]
      rw [if_pos hyes]
    · simp only [pistonSaveStep, hp]
      rw [if_pos hyes]
      exact lookupSettings_upsert st.piston_settings p st.selected_stops
    · simp only [pistonSaveStep, hp]
      rw [if_pos hyes]
      simp

/-- C7 (witness): with the manual piston `"HW"` of `conf1`, a save attempt
on piston `"HW"` changes nothing, while one on piston `"P1"` stores the
current selection under `"P1"`. -/
theorem C7_piston_save_witness :
    can_save manualPistonState.piston conf1.manual_piston = false ∧
    (pistonSaveStep conf1 manualPistonState Key.DOWN).1 = manualPistonState ∧
    can_save pistonP1State.piston conf1.manual_piston = true ∧
    lookupSettings (pistonSaveStep conf1 pistonP1State Key.DOWN).1.piston_settings
      ("P1".data) = some pistonP1State.selected_stops :=
  ⟨by decide,
   ((C7_piston_save conf1 manualPistonState).2.1 (by decide)).1,
   by decide,
   ((C7_piston_save conf1 pistonP1State).2.2 ("P1".data) rfl (by decide)).2.1⟩

/-- C9: a recognized navigation key processed while the screen is asleep
only wakes the display — the asleep flag is cleared, the current screen is
redrawn, and the key is not forwarded to any screen's key handler: the
whole state apart from the asleep flag (current screen, every screen's
value and active flag, selected stops, piston, reed-cutoff flag and — at a
loop-boundary state, where the active set matches its recomputation — the
active-stop set) is unchanged, and no messages are emitted. -/
theorem C9_wake_on_key (conf : Config) (st : MainState) (cmd : List Char)
    (key : Key) (hk : keymap cmd = some key) (ha : st.screen_asleep = true)
    (hb : st.active_stops = computeActive conf st) :
    (step conf st cmd).1 = { st with screen_asleep := false } ∧
    (step conf st cmd).2 =
      Effect.redrawScreen st.screens.current ::
        (if should_redraw st.screens then
          [Effect.redrawScreen st.screens.current]
        else []) := by
  have hd := dispatch_key_asleep conf st cmd key hk ha
  have hca : computeActive conf { st with screen_asleep := false }
      = computeActive conf st := rfl
  constructor
  · rw [step_fst, hd]
    dsimp only
    rw [hca, ← hb]
  · rw [step_snd, hd]
    dsimp only
    rw [hca, ← hb, send_stops_self]
    simp [should_redraw]

/-- C9 (witness): waking the startup state from sleep with UP leaves it
exactly as before, asleep flag apart. -/
theorem C9_wake_on_key_witness :
    keymap ("\x1b[A".data) = some Key.UP ∧
    asleepState.screen_asleep = true ∧
    (step conf1 asleepState ("\x1b[A".data)).1
      = { asleepState with screen_asleep := false } :=
  ⟨by decide, rfl,
   (C9_wake_on_key conf1 asleepState ("\x1b[A".data) Key.UP (by decide) rfl
     (by decide)).1⟩

end JohannusControlPanel
